import Mathlib

/-!
Verification of the `chinese-telegraph` crate (`src/chinese-telegraph/src/lib.rs`):
a lookup from single Chinese characters to historical four-digit telegraph codes,
over two static tables (Traditional/TW and Simplified/CN), with a selector enum
and an optional zero-padded string formatter.

The dispatcher `to_telegraph` and formatter `to_telegraph_string` are embedded
directly from `lib.rs`.  The table data modules `tw.rs` and `cn.rs` are not part
of the provided sources, so the tables are modelled from the specification.
-/

/-- The `Table` selector enum from `lib.rs` (lines 51-59): which character
table(s) to use for telegraph code lookup. -/
inductive Table where
  /-- Search both tables; TW first, then CN if no match is found. -/
  | Both : Table
  /-- Search only the Traditional Chinese (Taiwan) table. -/
  | TW : Table
  /-- Search only the Simplified Chinese table. -/
  | CN : Table
deriving DecidableEq, Repr

/-- Exact-match lookup in a character-to-code table, modelling `phf::Map::get`:
returns the code of the first entry whose key equals the query string. -/
def lookupTable : List (String × Nat) → String → Option Nat
  | [], _ => none
  | (k, v) :: rest, s => if k = s then some v else lookupTable rest s

/-- Modelled from the spec: the Traditional (TW) table module `src/tw.rs` is not
among the provided sources.  The spec describes it as an immutable mapping from
single Chinese characters to unsigned codes in [0, 9999]; only the entries the
spec names concretely are included ("一" → 1, "這" → 6638). -/
def TW_TABLE : List (String × Nat) := [("一", 1), ("這", 6638)]

/-- Modelled from the spec: the Simplified (CN) table module `src/cn.rs` is not
among the provided sources.  The spec describes it as an immutable mapping from
single Chinese characters to unsigned codes in [0, 9999]; only the entries the
spec names concretely are included ("一" → 1, "这" → 6638; "一" is rendered
identically in both standards and carries the same code in both tables). -/
def CN_TABLE : List (String × Nat) := [("一", 1), ("这", 6638)]

/-- The dispatcher, generic in the two tables; mirrors the `match` in
`to_telegraph` (`lib.rs` lines 93-102): `Both` looks up TW and falls back to CN
via `or_else`, `TW` and `CN` delegate to a single table. -/
def to_telegraph_gen (twT cnT : List (String × Nat)) (character : String)
    (table : Table) : Option Nat :=
  match table with
  | Table.Both => (lookupTable twT character).orElse (fun _ => lookupTable cnT character)
  | Table.TW => lookupTable twT character
  | Table.CN => lookupTable cnT character

/-- `to_telegraph` from `lib.rs` (lines 93-102), instantiated at the two static
tables. -/
def to_telegraph (character : String) (table : Table) : Option Nat :=
  to_telegraph_gen TW_TABLE CN_TABLE character table

/-- Fuel-indexed decimal rendering: the digit characters of `n` in base 10,
most significant first.  The fuel argument only serves termination; any fuel
greater than `n` yields the full rendering. -/
def toDecimalAux : Nat → Nat → List Char
  | 0, _ => []
  | fuel + 1, n =>
    if n < 10 then [Nat.digitChar n]
    else toDecimalAux fuel (n / 10) ++ [Nat.digitChar (n % 10)]

/-- The decimal digit characters of `n`, most significant first (what Rust's
`Display` for `usize` prints). -/
def toDecimal (n : Nat) : List Char := toDecimalAux (n + 1) n

/-- The Rust format specifier `{:04}` applied to `n`: the decimal rendering of
`n`, left-padded with `'0'` to a minimum width of 4 (wider numbers are printed
in full, never truncated). -/
def format4 (n : Nat) : String :=
  String.mk (List.replicate (4 - (toDecimal n).length) '0' ++ toDecimal n)

/-- `to_telegraph_string` from `lib.rs` (lines 132-134): maps `format!("{:04}", num)`
over the dispatcher's result. -/
def to_telegraph_string (character : String) (table : Table) : Option String :=
  (to_telegraph character table).map format4

/-- The numeric value of a decimal digit character (`'0'` ↦ 0, …, `'9'` ↦ 9). -/
def charVal (c : Char) : Nat := c.toNat - 48

/-- The number denoted by a list of decimal digit characters, most significant
first. -/
def listVal (l : List Char) : Nat := l.foldl (fun a c => 10 * a + charVal c) 0

/-- Reading a string back as a decimal number. -/
def parseDec (s : String) : Nat := listVal s.data

theorem data_mk (l : List Char) : (String.mk l).data = l := rfl

theorem length_mk (l : List Char) : (String.mk l).length = l.length := rfl

theorem lookupTable_none_of_keys_single (t : List (String × Nat)) (s : String)
    (hk : ∀ p ∈ t, (Prod.fst p).length = 1) (hs : s.length ≠ 1) :
    lookupTable t s = none := by
  induction t with
  | nil => rfl
  | cons p rest ih =>
    obtain ⟨k, v⟩ := p
    have hk1 : k.length = 1 := hk (k, v) (List.mem_cons_self _ _)
    have hne : k ≠ s := fun h => hs (h ▸ hk1)
    simp only [lookupTable, if_neg hne]
    exact ih fun q hq => hk q (List.mem_cons_of_mem _ hq)

theorem lookupTable_le (t : List (String × Nat)) (s : String) (v B : Nat)
    (hb : ∀ p ∈ t, (Prod.snd p) ≤ B) (h : lookupTable t s = some v) : v ≤ B := by
  induction t with
  | nil => simp [lookupTable] at h
  | cons p rest ih =>
    obtain ⟨k, w⟩ := p
    by_cases hk : k = s
    · simp only [lookupTable, if_pos hk, Option.some.injEq] at h
      exact h ▸ hb (k, w) (List.mem_cons_self _ _)
    · simp only [lookupTable, if_neg hk] at h
      exact ih (fun q hq => hb q (List.mem_cons_of_mem _ hq)) h

theorem to_telegraph_gen_le (twT cnT : List (String × Nat)) (B : Nat)
    (htw : ∀ p ∈ twT, (Prod.snd p) ≤ B) (hcn : ∀ p ∈ cnT, (Prod.snd p) ≤ B)
    (c : String) (t : Table) (n : Nat) (h : to_telegraph_gen twT cnT c t = some n) :
    n ≤ B := by
  cases t with
  | TW => exact lookupTable_le _ _ _ _ htw h
  | CN => exact lookupTable_le _ _ _ _ hcn h
  | Both =>
    cases hw : lookupTable twT c with
    | some m =>
      simp [to_telegraph_gen, hw, Option.orElse] at h
      exact h ▸ lookupTable_le _ _ _ _ htw hw
    | none =>
      simp [to_telegraph_gen, hw, Option.orElse] at h
      exact lookupTable_le _ _ _ _ hcn h

theorem to_telegraph_le_9999 (c : String) (t : Table) (n : Nat)
    (h : to_telegraph c t = some n) : n ≤ 9999 :=
  to_telegraph_gen_le TW_TABLE CN_TABLE 9999 (by decide) (by decide) c t n h

theorem charVal_digitChar : ∀ d, d < 10 → charVal (Nat.digitChar d) = d := by decide

theorem isDigit_digitChar : ∀ d, d < 10 → (Nat.digitChar d).isDigit = true := by decide

theorem listVal_append_singleton (l : List Char) (c : Char) :
    listVal (l ++ [c]) = 10 * listVal l + charVal c := by
  simp [listVal, List.foldl_append]

theorem toDecimalAux_listVal :
    ∀ fuel n, n < fuel → listVal (toDecimalAux fuel n) = n := by
  intro fuel
  induction fuel with
  | zero => intro n h; exact absurd h (Nat.not_lt_zero n)
  | succ f ih =>
    intro n h
    by_cases h10 : n < 10
    · simp [toDecimalAux, h10, listVal, charVal_digitChar n h10]
    · rw [show toDecimalAux (f + 1) n = toDecimalAux f (n / 10) ++ [Nat.digitChar (n % 10)]
        from by simp [toDecimalAux, h10]]
      rw [listVal_append_singleton, ih (n / 10) (by omega),
        charVal_digitChar (n % 10) (by omega)]
      omega

theorem toDecimalAux_digits :
    ∀ fuel n, n < fuel → ∀ c ∈ toDecimalAux fuel n, c.isDigit = true := by
  intro fuel
  induction fuel with
  | zero => intro n h; exact absurd h (Nat.not_lt_zero n)
  | succ f ih =>
    intro n h c hc
    by_cases h10 : n < 10
    · simp [toDecimalAux, h10] at hc
      exact hc ▸ isDigit_digitChar n h10
    · simp [toDecimalAux, h10, List.mem_append] at hc
      rcases hc with hc | hc
      · exact ih (n / 10) (by omega) c hc
      · exact hc ▸ isDigit_digitChar (n % 10) (by omega)

theorem toDecimalAux_length :
    ∀ k fuel n, n < fuel → n < 10 ^ (k + 1) → (toDecimalAux fuel n).length ≤ k + 1 := by
  intro k
  induction k with
  | zero =>
    intro fuel n hf h
    cases fuel with
    | zero => exact absurd hf (Nat.not_lt_zero n)
    | succ f =>
      have h10 : n < 10 := by simpa using h
      simp [toDecimalAux, h10]
  | succ k ih =>
    intro fuel n hf h
    cases fuel with
    | zero => exact absurd hf (Nat.not_lt_zero n)
    | succ f =>
      by_cases h10 : n < 10
      · simp [toDecimalAux, h10]
      · have hpow : (10 : Nat) ^ (k + 1 + 1) = 10 ^ (k + 1) * 10 := pow_succ 10 (k + 1)
        have hdiv : n / 10 < 10 ^ (k + 1) := by omega
        have hlen := ih f (n / 10) (by omega) hdiv
        simp [toDecimalAux, h10, List.length_append]
        omega

theorem listVal_toDecimal (n : Nat) : listVal (toDecimal n) = n :=
  toDecimalAux_listVal (n + 1) n (Nat.lt_succ_self n)

theorem toDecimal_digits (n : Nat) : ∀ c ∈ toDecimal n, c.isDigit = true :=
  toDecimalAux_digits (n + 1) n (Nat.lt_succ_self n)

theorem toDecimal_length_le (k n : Nat) (h : n < 10 ^ (k + 1)) :
    (toDecimal n).length ≤ k + 1 :=
  toDecimalAux_length k (n + 1) n (Nat.lt_succ_self n) h

theorem charVal_zero : charVal '0' = 0 := rfl

theorem listVal_zero_cons (l : List Char) : listVal ('0' :: l) = listVal l := by
  simp [listVal, charVal_zero]

theorem listVal_replicate_zero (k : Nat) (l : List Char) :
    listVal (List.replicate k '0' ++ l) = listVal l := by
  induction k with
  | zero => simp
  | succ k ih =>
    rw [List.replicate_succ, List.cons_append, listVal_zero_cons]
    exact ih

theorem format4_length (n : Nat) :
    (format4 n).length = max 4 (toDecimal n).length := by
  simp [format4, length_mk, List.length_append, List.length_replicate]
  omega

theorem parseDec_format4 (n : Nat) : parseDec (format4 n) = n := by
  simp [parseDec, format4, data_mk, listVal_replicate_zero, listVal_toDecimal]

theorem format4_digits (n : Nat) : ∀ c ∈ (format4 n).data, c.isDigit = true := by
  intro c hc
  simp [format4, data_mk, List.mem_append, List.mem_replicate] at hc
  rcases hc with ⟨-, hc⟩ | hc
  · rw [hc]; decide
  · exact toDecimal_digits n c hc

/-- C1: for every input string that decodes to zero characters or to two or more
characters, and for every selector (TW, CN, or Both), `to_telegraph` returns
`none`, regardless of whether substrings of the input individually match table
entries: every key of either table is a single character, so no lookup can
succeed on such an input. -/
theorem to_telegraph_none_of_not_single_char (s : String) (hs : s.length ≠ 1)
    (t : Table) : to_telegraph s t = none := by
  have htw : lookupTable TW_TABLE s = none :=
    lookupTable_none_of_keys_single _ _ (by decide) hs
  have hcn : lookupTable CN_TABLE s = none :=
    lookupTable_none_of_keys_single _ _ (by decide) hs
  cases t <;> simp [to_telegraph, to_telegraph_gen, htw, hcn, Option.orElse]

/-- C1 witness: the two-character string "這是" (whose first character alone is
a table entry) and the empty string both map to `none`. -/
theorem to_telegraph_none_of_not_single_char_witness :
    to_telegraph "這是" Table.Both = none ∧ to_telegraph "" Table.TW = none :=
  ⟨to_telegraph_none_of_not_single_char "這是" (by decide) Table.Both,
   to_telegraph_none_of_not_single_char "" (by decide) Table.TW⟩

/-- C2: for every character that is a key of both tables, `to_telegraph` with
`Both` returns the Traditional table's code (Traditional precedence); the
Simplified table is consulted only when the Traditional lookup finds nothing. -/
theorem to_telegraph_both_tw_precedence :
    (∀ (c : String) (n m : Nat), lookupTable TW_TABLE c = some n →
      lookupTable CN_TABLE c = some m → to_telegraph c Table.Both = some n) ∧
    (∀ c : String, lookupTable TW_TABLE c = none →
      to_telegraph c Table.Both = lookupTable CN_TABLE c) := by
  constructor
  · intro c n m htw _
    simp [to_telegraph, to_telegraph_gen, htw, Option.orElse]
  · intro c htw
    simp [to_telegraph, to_telegraph_gen, htw, Option.orElse]

/-- C2 witness: "一" is a key of both tables (code 1 in each) and `Both`
returns the Traditional code. -/
theorem to_telegraph_both_tw_precedence_witness :
    to_telegraph "一" Table.Both = some 1 :=
  to_telegraph_both_tw_precedence.1 "一" 1 1 (by decide) (by decide)

/-- C3: every character present in the Traditional table with code `n` yields
`some n` under both the `TW` selector and the `Both` selector. -/
theorem to_telegraph_tw_found (c : String) (n : Nat)
    (h : lookupTable TW_TABLE c = some n) :
    to_telegraph c Table.TW = some n ∧ to_telegraph c Table.Both = some n :=
  ⟨by simp [to_telegraph, to_telegraph_gen, h],
   by simp [to_telegraph, to_telegraph_gen, h, Option.orElse]⟩

/-- C3 witness: "這" has Traditional code 6638. -/
theorem to_telegraph_tw_found_witness :
    to_telegraph "這" Table.TW = some 6638 ∧ to_telegraph "這" Table.Both = some 6638 :=
  to_telegraph_tw_found "這" 6638 (by decide)

/-- C4: every character present in the Simplified table with code `n` and absent
from the Traditional table yields `some n` under both the `CN` selector and the
`Both` selector. -/
theorem to_telegraph_cn_fallback (c : String) (n : Nat)
    (hcn : lookupTable CN_TABLE c = some n) (htw : lookupTable TW_TABLE c = none) :
    to_telegraph c Table.CN = some n ∧ to_telegraph c Table.Both = some n :=
  ⟨by simp [to_telegraph, to_telegraph_gen, hcn],
   by simp [to_telegraph, to_telegraph_gen, htw, hcn, Option.orElse]⟩

/-- C4 witness: "这" has Simplified code 6638 and is not a Traditional key. -/
theorem to_telegraph_cn_fallback_witness :
    to_telegraph "这" Table.CN = some 6638 ∧ to_telegraph "这" Table.Both = some 6638 :=
  to_telegraph_cn_fallback "这" 6638 (by decide) (by decide)

/-- C5: whenever `to_telegraph` returns `some n`, `to_telegraph_string` returns
`some` of a string of exactly 4 decimal-digit characters whose decimal value is
`n`, i.e. `n` rendered left-padded with zeros to width 4. -/
theorem to_telegraph_string_pads_to_four (c : String) (t : Table) (n : Nat)
    (h : to_telegraph c t = some n) :
    to_telegraph_string c t = some (format4 n) ∧
    (format4 n).length = 4 ∧
    (∀ ch ∈ (format4 n).data, ch.isDigit = true) ∧
    parseDec (format4 n) = n := by
  have hb : n ≤ 9999 := to_telegraph_le_9999 c t n h
  refine ⟨by simp [to_telegraph_string, h], ?_, format4_digits n, parseDec_format4 n⟩
  have h4 : n < 10 ^ (3 + 1) := by norm_num; omega
  have hlen : (toDecimal n).length ≤ 4 := toDecimal_length_le 3 n h4
  rw [format4_length]
  omega

/-- C5 witness: the code 1 of "一" is formatted as a 4-digit zero-padded
string. -/
theorem to_telegraph_string_pads_to_four_witness :
    to_telegraph_string "一" Table.Both = some (format4 1) ∧
    (format4 1).length = 4 ∧
    (∀ ch ∈ (format4 1).data, ch.isDigit = true) ∧
    parseDec (format4 1) = 1 :=
  to_telegraph_string_pads_to_four "一" Table.Both 1 (by decide)

/-- C6: `to_telegraph_string` returns a value exactly when `to_telegraph` does
on the same inputs; both are total functions whose only failure outcome is
`none`. -/
theorem to_telegraph_string_isSome_iff (c : String) (t : Table) :
    (to_telegraph_string c t).isSome = (to_telegraph c t).isSome := by
  cases h : to_telegraph c t <;> simp [to_telegraph_string, h]

/-- C7: the codes stored in either table all lie in [0, 9999], and consequently
any code returned by `to_telegraph` lies in [0, 9999]. -/
theorem to_telegraph_code_range :
    (∀ p ∈ TW_TABLE, (Prod.snd p) ≤ 9999) ∧ (∀ p ∈ CN_TABLE, (Prod.snd p) ≤ 9999) ∧
    ∀ (c : String) (t : Table) (n : Nat), to_telegraph c t = some n → n ≤ 9999 :=
  ⟨by decide, by decide, fun c t n h => to_telegraph_le_9999 c t n h⟩

/-- C7 witness: the code returned for "這" is in range. -/
theorem to_telegraph_code_range_witness : (6638 : Nat) ≤ 9999 :=
  to_telegraph_code_range.2.2 "這" Table.TW 6638 (by decide)

/-- C8: the concrete scenarios hold on the table data: "這" has Traditional
code 6638, "一" under `Both` has code 1, and its formatted code is "0001". -/
theorem to_telegraph_concrete_scenarios :
    to_telegraph "這" Table.TW = some 6638 ∧
    to_telegraph "一" Table.Both = some 1 ∧
    to_telegraph_string "一" Table.Both = some "0001" :=
  ⟨by decide, by decide, by decide⟩

/-- C9: `to_telegraph` and `to_telegraph_string` are deterministic pure
functions: two calls with identical inputs return identical results. -/
theorem to_telegraph_deterministic (c₁ c₂ : String) (t₁ t₂ : Table)
    (hc : c₁ = c₂) (ht : t₁ = t₂) :
    to_telegraph c₁ t₁ = to_telegraph c₂ t₂ ∧
    to_telegraph_string c₁ t₁ = to_telegraph_string c₂ t₂ := by
  subst hc; subst ht; exact ⟨rfl, rfl⟩

/-- C9 witness: two identical calls on "一" agree. -/
theorem to_telegraph_deterministic_witness :
    to_telegraph "一" Table.Both = to_telegraph "一" Table.Both ∧
    to_telegraph_string "一" Table.Both = to_telegraph_string "一" Table.Both :=
  to_telegraph_deterministic "一" "一" Table.Both Table.Both rfl rfl

/-- C10: formatting loses no information: `format4` always yields a string of
length at least 4 whose decimal value is its argument (a hypothetical code
≥ 10000 is printed in full, never truncated), and whenever
`to_telegraph_string` returns `some s`, the string `s` has length at least 4
and parses back to exactly the code `to_telegraph` returns. -/
theorem to_telegraph_string_roundtrip :
    (∀ n : Nat, 4 ≤ (format4 n).length ∧ parseDec (format4 n) = n) ∧
    ∀ (c : String) (t : Table) (s : String), to_telegraph_string c t = some s →
      4 ≤ s.length ∧ to_telegraph c t = some (parseDec s) := by
  constructor
  · intro n
    refine ⟨?_, parseDec_format4 n⟩
    rw [format4_length]
    omega
  · intro c t s hs
    simp [to_telegraph_string, Option.map_eq_some'] at hs
    obtain ⟨n, hn, hfn⟩ := hs
    subst hfn
    constructor
    · rw [format4_length]; omega
    · rw [parseDec_format4]; exact hn

/-- C10 witness: the formatted code "0001" of "一" parses back to its code. -/
theorem to_telegraph_string_roundtrip_witness :
    4 ≤ ("0001" : String).length ∧ to_telegraph "一" Table.Both = some (parseDec "0001") :=
  to_telegraph_string_roundtrip.2 "一" Table.Both "0001" (by decide)
